import Mathlib

/-!
Verification of the arbitrage equilibrium solver of
`scripts/py-simulations/rmms/arb.py` (`arbitrageExactly`).

The pool (AMM object) is an external collaborator: we model it as a structure
carrying its scalar state together with its pricing functions as opaque
function-valued fields, exactly the interface `arbitrageExactly` consumes.
The root finder `scipy.optimize.brentq` is likewise external: the embedded
function takes it as a parameter, and theorems that depend on its behaviour
assume its documented contract at the specific call site.

Numbers are modelled as rationals (the Python floats, idealized to exact
arithmetic); `1e-8` becomes `1 / 100000000`.

Since the Python source mixes computation with two effects (the mutating swap
calls and the `assert`), the embedding returns an `ArbTrace` record describing
the complete observable outcome of one call: the value returned to the caller
(`retval`, which in the source is always `None`), the list of mutating swap
calls performed, whether the assert failed, and the intermediate quantities
(direction, bracket-vs-fallback choice, optimal trade, virtual-swap output,
profit) as the source computes them.
-/

namespace ParetoVault

/-- `EPSILON = 1e-8` (arb.py line 9), idealized as the exact rational. -/
def EPSILON : ℚ := 1 / 100000000

/-- `np.sign` on rationals: `1` for positive, `-1` for negative, `0` for zero. -/
def npSign (x : ℚ) : ℚ :=
  if 0 < x then 1 else if x < 0 then -1 else 0

/-- The AMM pool object, as the interface consumed by `arbitrageExactly`:
scalar state (`fee`, reserves, `K`, `invariant`, `sigma`, `tau`) plus the
pricing functions, which are opaque to the solver.  The virtual swaps return
a pair whose second component the solver discards. -/
structure Pool where
  fee : ℚ
  reserves_risky : ℚ
  reserves_riskless : ℚ
  K : ℚ
  invariant : ℚ
  sigma : ℚ
  tau : ℚ
  getMarginalPriceSwapRiskyIn : ℚ → ℚ
  getMarginalPriceSwapRisklessIn : ℚ → ℚ
  virtualSwapAmountInRisky : ℚ → ℚ × ℚ
  virtualSwapAmountInRiskless : ℚ → ℚ × ℚ

/-- `gamma = 1 - pool.fee` (arb.py line 24). -/
def Pool.gamma (pool : Pool) : ℚ := 1 - pool.fee

/-- A mutating swap call against the pool, with its amount in. -/
inductive SwapCall where
  | riskyIn (amount : ℚ)
  | risklessIn (amount : ℚ)
deriving DecidableEq

/-- The trade direction selected by the branch structure of `arbitrageExactly`. -/
inductive Direction where
  | riskyIn
  | risklessIn
deriving DecidableEq

/-- The executed-trade record of the spec's interface
(`Option<ExecutedTrade>`): amount in, amount out, realized profit. -/
structure ExecutedTrade where
  amount_in : ℚ
  amount_out : ℚ
  profit : ℚ
deriving DecidableEq

/-- Observable outcome of one `arbitrageExactly` call. -/
structure ArbTrace where
  /-- `true` iff one of the four boundary-guard returns was taken. -/
  guardFired : Bool
  /-- Direction branch entered, if any. -/
  direction : Option Direction
  /-- Once a direction is entered: `some true` iff the same-sign fallback
  assignment was taken instead of the `brentq` call. -/
  usedFallback : Option Bool
  /-- The computed `optimal_trade`, if a direction was entered. -/
  optimal_trade : Option ℚ
  /-- `true` iff `assert optimal_trade >= 0` failed (AssertionError). -/
  assertFailed : Bool
  /-- The virtual-swap `amount_out`, when reached. -/
  amount_out : Option ℚ
  /-- The computed `profit`, when reached. -/
  profit : Option ℚ
  /-- Mutating swap calls performed against the pool, in order. -/
  mutations : List SwapCall
  /-- The value returned to the caller.  The Python function has no `return`
  with a value anywhere, so this is `none` on every path. -/
  retval : Option ExecutedTrade
deriving DecidableEq

/-- Outcome of a path that performs no trade work: nothing computed, nothing
mutated, `None` returned. -/
def noopTrace (guardFired : Bool) : ArbTrace :=
  { guardFired := guardFired
    direction := none
    usedFallback := none
    optimal_trade := none
    assertFailed := false
    amount_out := none
    profit := none
    mutations := []
    retval := none }

/-- `func` of the risky-in branch (arb.py lines 61-62):
`func(amount_in) = pool.getMarginalPriceSwapRiskyIn(amount_in) - m`. -/
def riskyFunc (pool : Pool) (m : ℚ) : ℚ → ℚ :=
  fun amount_in => pool.getMarginalPriceSwapRiskyIn amount_in - m

/-- `func` of the riskless-in branch (arb.py lines 78-79):
`func(amount_in) = m - pool.getMarginalPriceSwapRisklessIn(amount_in)`. -/
def risklessFunc (pool : Pool) (m : ℚ) : ℚ → ℚ :=
  fun amount_in => m - pool.getMarginalPriceSwapRisklessIn amount_in

/-- Upper capacity bound of the risky-in direction: `1 - R1`. -/
def riskyUpper (pool : Pool) : ℚ := 1 - pool.reserves_risky

/-- Upper capacity bound of the riskless-in direction:
`(K + k - R2) / gamma`. -/
def risklessUpper (pool : Pool) : ℚ :=
  (pool.K + pool.invariant - pool.reserves_riskless) / pool.gamma

/-- `optimal_trade` of the risky-in branch (arb.py lines 65-68): `brentq` on
`[EPSILON, 1 - R1 - EPSILON]` when the signs at the ends differ, else the
fallback `1 - R1`. -/
def riskyOptimalTrade (brentq : (ℚ → ℚ) → ℚ → ℚ → ℚ) (m : ℚ) (pool : Pool) : ℚ :=
  let func := riskyFunc pool m
  if npSign (func EPSILON) ≠ npSign (func (riskyUpper pool - EPSILON)) then
    brentq func EPSILON (riskyUpper pool - EPSILON)
  else
    riskyUpper pool

/-- `optimal_trade` of the riskless-in branch (arb.py lines 82-85): `brentq`
on `[EPSILON, (K + k - R2)/gamma - EPSILON]` when the signs at the ends
differ, else the fallback `K - R2` (note: not `(K + k - R2)/gamma`). -/
def risklessOptimalTrade (brentq : (ℚ → ℚ) → ℚ → ℚ → ℚ) (m : ℚ) (pool : Pool) : ℚ :=
  let func := risklessFunc pool m
  if npSign (func EPSILON) ≠ npSign (func (risklessUpper pool - EPSILON)) then
    brentq func EPSILON (risklessUpper pool - EPSILON)
  else
    pool.K - pool.reserves_riskless

/-- The risky-in branch (arb.py lines 59-74): compute `optimal_trade`, assert
it is nonnegative, get the virtual-swap output, compute
`profit = amount_out - optimal_trade * m`, and execute the mutating swap
iff `profit > 0`. -/
def riskySwapBranch (brentq : (ℚ → ℚ) → ℚ → ℚ → ℚ) (m : ℚ) (pool : Pool) : ArbTrace :=
  let func := riskyFunc pool m
  let fallback : Bool := decide (npSign (func EPSILON) = npSign (func (riskyUpper pool - EPSILON)))
  let optimal_trade := riskyOptimalTrade brentq m pool
  if optimal_trade < 0 then
    { guardFired := false
      direction := some .riskyIn
      usedFallback := some fallback
      optimal_trade := some optimal_trade
      assertFailed := true
      amount_out := none
      profit := none
      mutations := []
      retval := none }
  else
    let amount_out := (pool.virtualSwapAmountInRisky optimal_trade).1
    let profit := amount_out - optimal_trade * m
    if 0 < profit then
      { guardFired := false
        direction := some .riskyIn
        usedFallback := some fallback
        optimal_trade := some optimal_trade
        assertFailed := false
        amount_out := some amount_out
        profit := some profit
        mutations := [SwapCall.riskyIn optimal_trade]
        retval := none }
    else
      { guardFired := false
        direction := some .riskyIn
        usedFallback := some fallback
        optimal_trade := some optimal_trade
        assertFailed := false
        amount_out := some amount_out
        profit := some profit
        mutations := []
        retval := none }

/-- The riskless-in branch (arb.py lines 77-91): compute `optimal_trade`,
assert it is nonnegative, get the virtual-swap output, compute
`profit = amount_out * m - optimal_trade`, and execute the mutating swap
iff `profit > 0`. -/
def risklessSwapBranch (brentq : (ℚ → ℚ) → ℚ → ℚ → ℚ) (m : ℚ) (pool : Pool) : ArbTrace :=
  let func := risklessFunc pool m
  let fallback : Bool := decide (npSign (func EPSILON) = npSign (func (risklessUpper pool - EPSILON)))
  let optimal_trade := risklessOptimalTrade brentq m pool
  if optimal_trade < 0 then
    { guardFired := false
      direction := some .risklessIn
      usedFallback := some fallback
      optimal_trade := some optimal_trade
      assertFailed := true
      amount_out := none
      profit := none
      mutations := []
      retval := none }
  else
    let amount_out := (pool.virtualSwapAmountInRiskless optimal_trade).1
    let profit := amount_out * m - optimal_trade
    if 0 < profit then
      { guardFired := false
        direction := some .risklessIn
        usedFallback := some fallback
        optimal_trade := some optimal_trade
        assertFailed := false
        amount_out := some amount_out
        profit := some profit
        mutations := [SwapCall.risklessIn optimal_trade]
        retval := none }
    else
      { guardFired := false
        direction := some .risklessIn
        usedFallback := some fallback
        optimal_trade := some optimal_trade
        assertFailed := false
        amount_out := some amount_out
        profit := some profit
        mutations := []
        retval := none }

/-- `arbitrageExactly` (arb.py lines 12-91), parameterized by the external
root finder (`scipy.optimize.brentq`).  The four leading conditionals are the
boundary guard (lines 42-54); the two direction conditionals (lines 59, 77)
compare the zero-size marginal prices against the market price with the
literal `1e-8` tolerance; falling through every branch returns `None`.
The unused local bindings of the source (`sigma`, `tau`, lines 29-30) read
pool fields and bind nothing the rest of the function uses, so they are not
reproduced. -/
def arbitrageExactly (brentq : (ℚ → ℚ) → ℚ → ℚ → ℚ) (market_price : ℚ)
    (pool : Pool) : ArbTrace :=
  let gamma := pool.gamma
  let R1 := pool.reserves_risky
  let R2 := pool.reserves_riskless
  let K := pool.K
  let k := pool.invariant
  let price_sell_risky := pool.getMarginalPriceSwapRiskyIn 0
  let price_buy_risky := pool.getMarginalPriceSwapRisklessIn 0
  let m := market_price
  if R1 < EPSILON then
    noopTrace true
  else if R2 < EPSILON ∨ (K + k - R2) / gamma < EPSILON then
    noopTrace true
  else if 1 - R1 < EPSILON then
    noopTrace true
  else if K - R2 < EPSILON then
    noopTrace true
  else if price_sell_risky > m + 1 / 100000000 then
    riskySwapBranch brentq m pool
  else if price_buy_risky < m - 1 / 100000000 then
    risklessSwapBranch brentq m pool
  else
    noopTrace false

/-- The disjunction of the four boundary-guard conditions (arb.py
lines 42-54). -/
def boundaryGuardFires (pool : Pool) : Prop :=
  pool.reserves_risky < EPSILON ∨
    (pool.reserves_riskless < EPSILON ∨
      (pool.K + pool.invariant - pool.reserves_riskless) / pool.gamma < EPSILON) ∨
    1 - pool.reserves_risky < EPSILON ∨
    pool.K - pool.reserves_riskless < EPSILON

instance (pool : Pool) : Decidable (boundaryGuardFires pool) := by
  unfold boundaryGuardFires; infer_instance

/-! ### Concrete instances used by witnesses and counterexamples -/

/-- A concrete stand-in for the external root finder: the midpoint of the
bracket.  Which root finder is plugged in is irrelevant to the theorems; this
one makes the witnesses computable. -/
def rfMid : (ℚ → ℚ) → ℚ → ℚ → ℚ := fun _ a b => (a + b) / 2

/-- A pool whose risky-in branch takes the same-sign fallback and executes a
profitable trade (with market price `1`). -/
def poolA : Pool :=
  { fee := 0
    reserves_risky := 1 / 2
    reserves_riskless := 1 / 2
    K := 1
    invariant := 0
    sigma := 1
    tau := 1
    getMarginalPriceSwapRiskyIn := fun a => 2 - a
    getMarginalPriceSwapRisklessIn := fun a => 2 + a
    virtualSwapAmountInRisky := fun a => (a * 3 / 2, 0)
    virtualSwapAmountInRiskless := fun a => (a / 2, 0) }

/-- A pool whose risky-in branch brackets a root at `3/8` (with market price
`13/8`), which `rfMid` hits exactly. -/
def poolB : Pool :=
  { fee := 0
    reserves_risky := 1 / 4
    reserves_riskless := 1 / 2
    K := 1
    invariant := 0
    sigma := 1
    tau := 1
    getMarginalPriceSwapRiskyIn := fun a => 2 - a
    getMarginalPriceSwapRisklessIn := fun a => 2 + a
    virtualSwapAmountInRisky := fun a => (a * 3 / 2, 0)
    virtualSwapAmountInRiskless := fun a => (a / 2, 0) }

/-- A pool with a nonzero fee whose riskless-in branch takes the same-sign
fallback (with market price `3`): there the fallback `K - R2 = 1/2` differs
from the capacity bound `(K + k - R2)/gamma = 1`. -/
def poolC : Pool :=
  { fee := 1 / 2
    reserves_risky := 1 / 2
    reserves_riskless := 1 / 2
    K := 1
    invariant := 0
    sigma := 1
    tau := 1
    getMarginalPriceSwapRiskyIn := fun _ => 1
    getMarginalPriceSwapRisklessIn := fun a => 2 + a
    virtualSwapAmountInRisky := fun a => (a * 3 / 2, 0)
    virtualSwapAmountInRiskless := fun a => (a / 2, 0) }

/-- A degenerate pool: empty risky reserves, so the boundary guard fires. -/
def poolD : Pool :=
  { poolA with reserves_risky := 0 }

/-! ### Branch characterization lemmas -/

lemma arbitrageExactly_of_guard (brentq : (ℚ → ℚ) → ℚ → ℚ → ℚ) (m : ℚ)
    (pool : Pool) (h : boundaryGuardFires pool) :
    arbitrageExactly brentq m pool = noopTrace true := by
  unfold arbitrageExactly
  rcases h with h1 | h2 | h3 | h4
  · rw [if_pos h1]
  · by_cases h1 : pool.reserves_risky < EPSILON
    · rw [if_pos h1]
    · rw [if_neg h1, if_pos h2]
  · by_cases h1 : pool.reserves_risky < EPSILON
    · rw [if_pos h1]
    · rw [if_neg h1]
      by_cases h2 : pool.reserves_riskless < EPSILON ∨
          (pool.K + pool.invariant - pool.reserves_riskless) / pool.gamma < EPSILON
      · rw [if_pos h2]
      · rw [if_neg h2, if_pos h3]
  · by_cases h1 : pool.reserves_risky < EPSILON
    · rw [if_pos h1]
    · rw [if_neg h1]
      by_cases h2 : pool.reserves_riskless < EPSILON ∨
          (pool.K + pool.invariant - pool.reserves_riskless) / pool.gamma < EPSILON
      · rw [if_pos h2]
      · rw [if_neg h2]
        by_cases h3 : 1 - pool.reserves_risky < EPSILON
        · rw [if_pos h3]
        · rw [if_neg h3, if_pos h4]

/-- Splitting the negated guard into its four constituent negations. -/
lemma guard_not_fires_iff (pool : Pool) :
    ¬ boundaryGuardFires pool ↔
      ¬ pool.reserves_risky < EPSILON ∧
      ¬ (pool.reserves_riskless < EPSILON ∨
          (pool.K + pool.invariant - pool.reserves_riskless) / pool.gamma < EPSILON) ∧
      ¬ 1 - pool.reserves_risky < EPSILON ∧
      ¬ pool.K - pool.reserves_riskless < EPSILON := by
  unfold boundaryGuardFires
  tauto

lemma arbitrageExactly_of_risky (brentq : (ℚ → ℚ) → ℚ → ℚ → ℚ) (m : ℚ)
    (pool : Pool) (hg : ¬ boundaryGuardFires pool)
    (hs : pool.getMarginalPriceSwapRiskyIn 0 > m + 1 / 100000000) :
    arbitrageExactly brentq m pool = riskySwapBranch brentq m pool := by
  obtain ⟨h1, h2, h3, h4⟩ := (guard_not_fires_iff pool).mp hg
  unfold arbitrageExactly
  rw [if_neg h1, if_neg h2, if_neg h3, if_neg h4, if_pos hs]

lemma arbitrageExactly_of_riskless (brentq : (ℚ → ℚ) → ℚ → ℚ → ℚ) (m : ℚ)
    (pool : Pool) (hg : ¬ boundaryGuardFires pool)
    (hs : ¬ pool.getMarginalPriceSwapRiskyIn 0 > m + 1 / 100000000)
    (hb : pool.getMarginalPriceSwapRisklessIn 0 < m - 1 / 100000000) :
    arbitrageExactly brentq m pool = risklessSwapBranch brentq m pool := by
  obtain ⟨h1, h2, h3, h4⟩ := (guard_not_fires_iff pool).mp hg
  unfold arbitrageExactly
  rw [if_neg h1, if_neg h2, if_neg h3, if_neg h4, if_neg hs, if_pos hb]

lemma arbitrageExactly_of_aligned (brentq : (ℚ → ℚ) → ℚ → ℚ → ℚ) (m : ℚ)
    (pool : Pool) (hg : ¬ boundaryGuardFires pool)
    (hs : ¬ pool.getMarginalPriceSwapRiskyIn 0 > m + 1 / 100000000)
    (hb : ¬ pool.getMarginalPriceSwapRisklessIn 0 < m - 1 / 100000000) :
    arbitrageExactly brentq m pool = noopTrace false := by
  obtain ⟨h1, h2, h3, h4⟩ := (guard_not_fires_iff pool).mp hg
  unfold arbitrageExactly
  rw [if_neg h1, if_neg h2, if_neg h3, if_neg h4, if_neg hs, if_neg hb]

/-! ### Field-level facts about the two direction branches -/

lemma riskySwapBranch_direction (brentq : (ℚ → ℚ) → ℚ → ℚ → ℚ) (m : ℚ)
    (pool : Pool) :
    (riskySwapBranch brentq m pool).direction = some .riskyIn := by
  simp only [riskySwapBranch]
  split
  · rfl
  · split <;> rfl

lemma risklessSwapBranch_direction (brentq : (ℚ → ℚ) → ℚ → ℚ → ℚ) (m : ℚ)
    (pool : Pool) :
    (risklessSwapBranch brentq m pool).direction = some .risklessIn := by
  simp only [risklessSwapBranch]
  split
  · rfl
  · split <;> rfl

lemma riskySwapBranch_optimal_trade (brentq : (ℚ → ℚ) → ℚ → ℚ → ℚ) (m : ℚ)
    (pool : Pool) :
    (riskySwapBranch brentq m pool).optimal_trade =
      some (riskyOptimalTrade brentq m pool) := by
  simp only [riskySwapBranch]
  split
  · rfl
  · split <;> rfl

lemma risklessSwapBranch_optimal_trade (brentq : (ℚ → ℚ) → ℚ → ℚ → ℚ) (m : ℚ)
    (pool : Pool) :
    (risklessSwapBranch brentq m pool).optimal_trade =
      some (risklessOptimalTrade brentq m pool) := by
  simp only [risklessSwapBranch]
  split
  · rfl
  · split <;> rfl

lemma riskySwapBranch_usedFallback (brentq : (ℚ → ℚ) → ℚ → ℚ → ℚ) (m : ℚ)
    (pool : Pool) :
    (riskySwapBranch brentq m pool).usedFallback =
      some (decide (npSign (riskyFunc pool m EPSILON) =
        npSign (riskyFunc pool m (riskyUpper pool - EPSILON)))) := by
  simp only [riskySwapBranch]
  split
  · rfl
  · split <;> rfl

lemma risklessSwapBranch_usedFallback (brentq : (ℚ → ℚ) → ℚ → ℚ → ℚ) (m : ℚ)
    (pool : Pool) :
    (risklessSwapBranch brentq m pool).usedFallback =
      some (decide (npSign (risklessFunc pool m EPSILON) =
        npSign (risklessFunc pool m (risklessUpper pool - EPSILON)))) := by
  simp only [risklessSwapBranch]
  split
  · rfl
  · split <;> rfl

lemma riskySwapBranch_retval (brentq : (ℚ → ℚ) → ℚ → ℚ → ℚ) (m : ℚ)
    (pool : Pool) : (riskySwapBranch brentq m pool).retval = none := by
  simp only [riskySwapBranch]
  split
  · rfl
  · split <;> rfl

lemma risklessSwapBranch_retval (brentq : (ℚ → ℚ) → ℚ → ℚ → ℚ) (m : ℚ)
    (pool : Pool) : (risklessSwapBranch brentq m pool).retval = none := by
  simp only [risklessSwapBranch]
  split
  · rfl
  · split <;> rfl

lemma riskySwapBranch_guardFired (brentq : (ℚ → ℚ) → ℚ → ℚ → ℚ) (m : ℚ)
    (pool : Pool) : (riskySwapBranch brentq m pool).guardFired = false := by
  simp only [riskySwapBranch]
  split
  · rfl
  · split <;> rfl

lemma risklessSwapBranch_guardFired (brentq : (ℚ → ℚ) → ℚ → ℚ → ℚ) (m : ℚ)
    (pool : Pool) : (risklessSwapBranch brentq m pool).guardFired = false := by
  simp only [risklessSwapBranch]
  split
  · rfl
  · split <;> rfl

lemma riskySwapBranch_length (brentq : (ℚ → ℚ) → ℚ → ℚ → ℚ) (m : ℚ)
    (pool : Pool) : (riskySwapBranch brentq m pool).mutations.length ≤ 1 := by
  simp only [riskySwapBranch]
  split
  · simp
  · split <;> simp

lemma risklessSwapBranch_length (brentq : (ℚ → ℚ) → ℚ → ℚ → ℚ) (m : ℚ)
    (pool : Pool) : (risklessSwapBranch brentq m pool).mutations.length ≤ 1 := by
  simp only [risklessSwapBranch]
  split
  · simp
  · split <;> simp

lemma riskySwapBranch_profit_gate (brentq : (ℚ → ℚ) → ℚ → ℚ → ℚ) (m : ℚ)
    (pool : Pool) (p : ℚ) (hp : (riskySwapBranch brentq m pool).profit = some p)
    (hnp : p ≤ 0) : (riskySwapBranch brentq m pool).mutations = [] := by
  simp only [riskySwapBranch] at hp ⊢
  split
  · rfl
  · next h =>
    split
    · next h2 =>
      exfalso
      rw [if_neg h, if_pos h2] at hp
      simp only [Option.some.injEq] at hp
      linarith
    · rfl

lemma risklessSwapBranch_profit_gate (brentq : (ℚ → ℚ) → ℚ → ℚ → ℚ) (m : ℚ)
    (pool : Pool) (p : ℚ) (hp : (risklessSwapBranch brentq m pool).profit = some p)
    (hnp : p ≤ 0) : (risklessSwapBranch brentq m pool).mutations = [] := by
  simp only [risklessSwapBranch] at hp ⊢
  split
  · rfl
  · next h =>
    split
    · next h2 =>
      exfalso
      rw [if_neg h, if_pos h2] at hp
      simp only [Option.some.injEq] at hp
      linarith
    · rfl

lemma riskySwapBranch_assertFailed (brentq : (ℚ → ℚ) → ℚ → ℚ → ℚ) (m : ℚ)
    (pool : Pool) (h : ¬ riskyOptimalTrade brentq m pool < 0) :
    (riskySwapBranch brentq m pool).assertFailed = false := by
  simp only [riskySwapBranch]
  rw [if_neg h]
  split <;> rfl

lemma risklessSwapBranch_assertFailed (brentq : (ℚ → ℚ) → ℚ → ℚ → ℚ) (m : ℚ)
    (pool : Pool) (h : ¬ risklessOptimalTrade brentq m pool < 0) :
    (risklessSwapBranch brentq m pool).assertFailed = false := by
  simp only [risklessSwapBranch]
  rw [if_neg h]
  split <;> rfl

lemma EPSILON_pos : 0 < EPSILON := by norm_num [EPSILON]

/-- Under the guard's `1 - R1 ≥ ε` and an interval-membership contract for
the root finder at the risky-in call site, the computed risky-in trade size
is nonnegative. -/
lemma riskyOptimalTrade_nonneg (brentq : (ℚ → ℚ) → ℚ → ℚ → ℚ) (m : ℚ)
    (pool : Pool) (h3 : ¬ 1 - pool.reserves_risky < EPSILON)
    (hrf : npSign (riskyFunc pool m EPSILON) ≠
        npSign (riskyFunc pool m (riskyUpper pool - EPSILON)) →
      min EPSILON (riskyUpper pool - EPSILON) ≤
        brentq (riskyFunc pool m) EPSILON (riskyUpper pool - EPSILON)) :
    0 ≤ riskyOptimalTrade brentq m pool := by
  have hub : EPSILON ≤ riskyUpper pool := by
    unfold riskyUpper
    linarith [not_lt.mp h3]
  have he := EPSILON_pos
  simp only [riskyOptimalTrade]
  split
  · next hsign =>
      refine le_trans ?_ (hrf hsign)
      exact le_min (le_of_lt he) (by linarith)
  · linarith

/-- Under the guard's `(K + k - R2)/gamma ≥ ε` and `K - R2 ≥ ε` and an
interval-membership contract for the root finder at the riskless-in call
site, the computed riskless-in trade size is nonnegative. -/
lemma risklessOptimalTrade_nonneg (brentq : (ℚ → ℚ) → ℚ → ℚ → ℚ) (m : ℚ)
    (pool : Pool)
    (h2 : ¬ risklessUpper pool < EPSILON)
    (h4 : ¬ pool.K - pool.reserves_riskless < EPSILON)
    (hrf : npSign (risklessFunc pool m EPSILON) ≠
        npSign (risklessFunc pool m (risklessUpper pool - EPSILON)) →
      min EPSILON (risklessUpper pool - EPSILON) ≤
        brentq (risklessFunc pool m) EPSILON (risklessUpper pool - EPSILON)) :
    0 ≤ risklessOptimalTrade brentq m pool := by
  have hub : EPSILON ≤ risklessUpper pool := not_lt.mp h2
  have he := EPSILON_pos
  simp only [risklessOptimalTrade]
  split
  · next hsign =>
      refine le_trans ?_ (hrf hsign)
      exact le_min (le_of_lt he) (by linarith)
  · linarith [not_lt.mp h4]

/-- `npSign` is zero exactly on zero. -/
lemma npSign_eq_zero_iff (x : ℚ) : npSign x = 0 ↔ x = 0 := by
  unfold npSign
  rcases lt_trichotomy x 0 with h | h | h
  · rw [if_neg (by linarith), if_pos h]
    constructor <;> intro hc <;> [norm_num at hc; linarith]
  · simp [h]
  · rw [if_pos h]
    constructor <;> intro hc <;> [norm_num at hc; linarith]

/-- The midpoint always lies between the bracket's endpoints. -/
lemma rfMid_mem (f : ℚ → ℚ) (a b : ℚ) :
    min a b ≤ rfMid f a b ∧ rfMid f a b ≤ max a b := by
  unfold rfMid
  constructor
  · rcases le_total a b with h | h
    · rw [min_eq_left h]; linarith
    · rw [min_eq_right h]; linarith
  · rcases le_total a b with h | h
    · rw [max_eq_right h]; linarith
    · rw [max_eq_left h]; linarith

/-! ### Concrete evaluations (sanity checks of the embedding) -/

example : boundaryGuardFires poolD := by
  norm_num [boundaryGuardFires, poolD, poolA, EPSILON]
example : ¬ boundaryGuardFires poolA := by
  norm_num [boundaryGuardFires, poolA, Pool.gamma, EPSILON]
example : ¬ boundaryGuardFires poolB := by
  norm_num [boundaryGuardFires, poolB, Pool.gamma, EPSILON]
example : ¬ boundaryGuardFires poolC := by
  norm_num [boundaryGuardFires, poolC, Pool.gamma, EPSILON]
example : arbitrageExactly rfMid 1 poolA =
    { guardFired := false, direction := some .riskyIn, usedFallback := some true,
      optimal_trade := some (1/2), assertFailed := false, amount_out := some (3/4),
      profit := some (1/4), mutations := [SwapCall.riskyIn (1/2)], retval := none } := by
  norm_num [arbitrageExactly, riskySwapBranch, riskyOptimalTrade, riskyFunc, riskyUpper,
    npSign, poolA, Pool.gamma, EPSILON, rfMid]
example : arbitrageExactly rfMid (13/8) poolB =
    { guardFired := false, direction := some .riskyIn, usedFallback := some false,
      optimal_trade := some (3/8), assertFailed := false, amount_out := some (9/16),
      profit := some (-(3/64)), mutations := [], retval := none } := by
  norm_num [arbitrageExactly, riskySwapBranch, riskyOptimalTrade, riskyFunc, riskyUpper,
    npSign, poolB, Pool.gamma, EPSILON, rfMid]
example : arbitrageExactly rfMid 3 poolC =
    { guardFired := false, direction := some .risklessIn, usedFallback := some true,
      optimal_trade := some (1/2), assertFailed := false, amount_out := some (1/4),
      profit := some (1/4), mutations := [SwapCall.risklessIn (1/2)], retval := none } := by
  norm_num [arbitrageExactly, risklessSwapBranch, risklessOptimalTrade, risklessFunc,
    risklessUpper, npSign, poolC, Pool.gamma, EPSILON, rfMid]
example : arbitrageExactly rfMid 5 poolD = noopTrace true := by
  norm_num [arbitrageExactly, poolD, poolA, EPSILON]

/-- If exactly one of two rationals is zero, their `np.sign` values differ. -/
lemma npSign_ne_of_zero_mix (x y : ℚ)
    (h : (x = 0 ∧ y ≠ 0) ∨ (x ≠ 0 ∧ y = 0)) : npSign x ≠ npSign y := by
  rcases h with ⟨hx, hy⟩ | ⟨hx, hy⟩
  · intro hc
    apply hy
    rw [← npSign_eq_zero_iff, ← hc, hx, npSign_eq_zero_iff]
  · intro hc
    apply hx
    rw [← npSign_eq_zero_iff, hc, hy, npSign_eq_zero_iff]

/-! ### Claims -/

/-- C4: for every pool state in which any of the four degenerate conditions
holds — risky reserve below ε, riskless reserve below ε or riskless-side
capacity `(K + invariant - R2)/(1 - fee)` below ε, `1 - R1` below ε, or
`K - R2` below ε — the arbitrage call returns a no-op result (no raised
failure), with no root-finding and no mutation, regardless of the reference
price and of the root finder. -/
theorem C4_guard_degenerate_noop (brentq : (ℚ → ℚ) → ℚ → ℚ → ℚ) (m : ℚ)
    (pool : Pool) (h : boundaryGuardFires pool) :
    arbitrageExactly brentq m pool = noopTrace true ∧
    (arbitrageExactly brentq m pool).mutations = [] ∧
    (arbitrageExactly brentq m pool).assertFailed = false ∧
    (arbitrageExactly brentq m pool).optimal_trade = none ∧
    (arbitrageExactly brentq m pool).retval = none := by
  have h0 := arbitrageExactly_of_guard brentq m pool h
  exact ⟨h0, by rw [h0]; rfl, by rw [h0]; rfl, by rw [h0]; rfl, by rw [h0]; rfl⟩

theorem C4_guard_degenerate_noop_witness :
    boundaryGuardFires poolD ∧ arbitrageExactly rfMid 5 poolD = noopTrace true :=
  ⟨by norm_num [boundaryGuardFires, poolD, poolA, EPSILON],
   (C4_guard_degenerate_noop rfMid 5 poolD
     (by norm_num [boundaryGuardFires, poolD, poolA, EPSILON])).1⟩

/-- C2 as stated is false: at this concrete input the call executes a trade
(the mutating swap `swapAmountInRisky(1/2)` is performed), yet the function
returns nothing — the executed amount-in/amount-out/profit are not returned
to the caller. -/
theorem C2_counterexample :
    (arbitrageExactly rfMid 1 poolA).mutations = [SwapCall.riskyIn (1/2)] ∧
    (arbitrageExactly rfMid 1 poolA).retval = none := by
  norm_num [arbitrageExactly, riskySwapBranch, riskyOptimalTrade, riskyFunc, riskyUpper,
    npSign, poolA, Pool.gamma, EPSILON, rfMid]

/-- C2 amended: for every reference price and pool, the arbitrage operation
returns nothing on every path — both on the no-op paths and when a trade is
executed; the executed amounts and profit are computed and the swap is
performed, but they are not returned to the caller. -/
theorem C2_retval_always_none (brentq : (ℚ → ℚ) → ℚ → ℚ → ℚ) (m : ℚ)
    (pool : Pool) : (arbitrageExactly brentq m pool).retval = none := by
  by_cases hg : boundaryGuardFires pool
  · rw [arbitrageExactly_of_guard brentq m pool hg]; rfl
  · by_cases hs : pool.getMarginalPriceSwapRiskyIn 0 > m + 1 / 100000000
    · rw [arbitrageExactly_of_risky brentq m pool hg hs]
      exact riskySwapBranch_retval brentq m pool
    · by_cases hb : pool.getMarginalPriceSwapRisklessIn 0 < m - 1 / 100000000
      · rw [arbitrageExactly_of_riskless brentq m pool hg hs hb]
        exact risklessSwapBranch_retval brentq m pool
      · rw [arbitrageExactly_of_aligned brentq m pool hg hs hb]; rfl

/-- C9: for every pool whose fee lies in `[0, 1)`, `gamma = 1 - fee` is
strictly positive, hence nonzero, so every division by `gamma` (in the
guard's riskless-capacity test and in the riskless-in bracket bounds) has a
nonzero divisor. -/
theorem C9_gamma_pos (pool : Pool) (_h0 : 0 ≤ pool.fee) (h1 : pool.fee < 1) :
    0 < pool.gamma ∧ pool.gamma ≠ 0 := by
  unfold Pool.gamma
  exact ⟨by linarith, by intro hc; linarith⟩

theorem C9_gamma_pos_witness :
    0 ≤ poolA.fee ∧ poolA.fee < 1 ∧ 0 < poolA.gamma :=
  ⟨by norm_num [poolA], by norm_num [poolA],
   (C9_gamma_pos poolA (by norm_num [poolA]) (by norm_num [poolA])).1⟩

/-- C8: for every root finder, reference price and pool, the arbitrage call
performs at most one mutating call into the pool, and performs none when the
guard fired, when no direction was selected, or when the computed profit is
nonpositive. -/
theorem C8_single_mutation (brentq : (ℚ → ℚ) → ℚ → ℚ → ℚ) (m : ℚ)
    (pool : Pool) :
    (arbitrageExactly brentq m pool).mutations.length ≤ 1 ∧
    ((arbitrageExactly brentq m pool).guardFired = true →
      (arbitrageExactly brentq m pool).mutations = []) ∧
    ((arbitrageExactly brentq m pool).direction = none →
      (arbitrageExactly brentq m pool).mutations = []) ∧
    (∀ p, (arbitrageExactly brentq m pool).profit = some p → p ≤ 0 →
      (arbitrageExactly brentq m pool).mutations = []) := by
  by_cases hg : boundaryGuardFires pool
  · rw [arbitrageExactly_of_guard brentq m pool hg]
    exact ⟨by simp [noopTrace], fun _ => rfl, fun _ => rfl,
      fun p hp _ => by simp [noopTrace] at hp⟩
  · by_cases hs : pool.getMarginalPriceSwapRiskyIn 0 > m + 1 / 100000000
    · rw [arbitrageExactly_of_risky brentq m pool hg hs]
      refine ⟨riskySwapBranch_length brentq m pool, ?_, ?_,
        fun p hp hnp => riskySwapBranch_profit_gate brentq m pool p hp hnp⟩
      · rw [riskySwapBranch_guardFired]; intro h; simp at h
      · rw [riskySwapBranch_direction]; intro h; simp at h
    · by_cases hb : pool.getMarginalPriceSwapRisklessIn 0 < m - 1 / 100000000
      · rw [arbitrageExactly_of_riskless brentq m pool hg hs hb]
        refine ⟨risklessSwapBranch_length brentq m pool, ?_, ?_,
          fun p hp hnp => risklessSwapBranch_profit_gate brentq m pool p hp hnp⟩
        · rw [risklessSwapBranch_guardFired]; intro h; simp at h
        · rw [risklessSwapBranch_direction]; intro h; simp at h
      · rw [arbitrageExactly_of_aligned brentq m pool hg hs hb]
        exact ⟨by simp [noopTrace], fun _ => rfl, fun _ => rfl,
          fun p hp _ => by simp [noopTrace] at hp⟩

theorem C8_single_mutation_witness :
    (arbitrageExactly rfMid 1 poolA).mutations.length ≤ 1 :=
  (C8_single_mutation rfMid 1 poolA).1

/-- C5: for every pool state passing the boundary guard and every reference
price `m`, the direction is chosen first-match-wins with tolerance `1e-8`:
risky-in exactly when the zero-size sell-risky marginal price exceeds
`m + 1e-8`; otherwise riskless-in exactly when the zero-size buy-risky
marginal price is below `m - 1e-8`; otherwise the call is a full no-op.  At
most one direction is selected (the `direction` field is a single option). -/
theorem C5_direction_selector (brentq : (ℚ → ℚ) → ℚ → ℚ → ℚ) (m : ℚ)
    (pool : Pool) (hg : ¬ boundaryGuardFires pool) :
    ((arbitrageExactly brentq m pool).direction = some Direction.riskyIn ↔
      pool.getMarginalPriceSwapRiskyIn 0 > m + 1 / 100000000) ∧
    ((arbitrageExactly brentq m pool).direction = some Direction.risklessIn ↔
      ¬ pool.getMarginalPriceSwapRiskyIn 0 > m + 1 / 100000000 ∧
        pool.getMarginalPriceSwapRisklessIn 0 < m - 1 / 100000000) ∧
    (¬ pool.getMarginalPriceSwapRiskyIn 0 > m + 1 / 100000000 →
      ¬ pool.getMarginalPriceSwapRisklessIn 0 < m - 1 / 100000000 →
      arbitrageExactly brentq m pool = noopTrace false) := by
  by_cases hs : pool.getMarginalPriceSwapRiskyIn 0 > m + 1 / 100000000
  · have hE := arbitrageExactly_of_risky brentq m pool hg hs
    have hd := riskySwapBranch_direction brentq m pool
    refine ⟨⟨fun _ => hs, fun _ => by rw [hE, hd]⟩,
      ⟨fun h => ?_, fun h => absurd hs h.1⟩, fun hns _ => absurd hs hns⟩
    rw [hE, hd] at h
    simp at h
  · by_cases hb : pool.getMarginalPriceSwapRisklessIn 0 < m - 1 / 100000000
    · have hE := arbitrageExactly_of_riskless brentq m pool hg hs hb
      have hd := risklessSwapBranch_direction brentq m pool
      refine ⟨⟨fun h => ?_, fun h => absurd h hs⟩,
        ⟨fun _ => ⟨hs, hb⟩, fun _ => by rw [hE, hd]⟩, fun _ hnb => absurd hb hnb⟩
      rw [hE, hd] at h
      simp at h
    · have hE := arbitrageExactly_of_aligned brentq m pool hg hs hb
      refine ⟨⟨fun h => ?_, fun h => absurd h hs⟩,
        ⟨fun h => ?_, fun h => absurd h.2 hb⟩, fun _ _ => hE⟩ <;>
      · rw [hE] at h
        simp [noopTrace] at h

theorem C5_direction_selector_witness :
    (arbitrageExactly rfMid 1 poolA).direction = some Direction.riskyIn :=
  (C5_direction_selector rfMid 1 poolA
      (by norm_num [boundaryGuardFires, poolA, Pool.gamma, EPSILON])).1.mpr
    (by norm_num [poolA])

/-- C3: under the guard, once a direction is selected and the computed trade
size is nonnegative (the assert passes), the mutating swap is executed iff
`profit > 0` — where `profit = amount_out - t* · m` in the risky-in direction
and `profit = amount_out · m - t*` in the riskless-in direction, with
`amount_out` the first component of the read-only virtual swap at `t*` — and
when `profit ≤ 0` no mutating call is made. -/
theorem C3_profit_gate (brentq : (ℚ → ℚ) → ℚ → ℚ → ℚ) (m : ℚ)
    (pool : Pool) (hg : ¬ boundaryGuardFires pool) :
    (pool.getMarginalPriceSwapRiskyIn 0 > m + 1 / 100000000 →
      0 ≤ riskyOptimalTrade brentq m pool →
      (((arbitrageExactly brentq m pool).mutations =
          [SwapCall.riskyIn (riskyOptimalTrade brentq m pool)] ↔
        0 < (pool.virtualSwapAmountInRisky (riskyOptimalTrade brentq m pool)).1 -
          riskyOptimalTrade brentq m pool * m) ∧
        ((pool.virtualSwapAmountInRisky (riskyOptimalTrade brentq m pool)).1 -
          riskyOptimalTrade brentq m pool * m ≤ 0 →
          (arbitrageExactly brentq m pool).mutations = []))) ∧
    (¬ pool.getMarginalPriceSwapRiskyIn 0 > m + 1 / 100000000 →
      pool.getMarginalPriceSwapRisklessIn 0 < m - 1 / 100000000 →
      0 ≤ risklessOptimalTrade brentq m pool →
      (((arbitrageExactly brentq m pool).mutations =
          [SwapCall.risklessIn (risklessOptimalTrade brentq m pool)] ↔
        0 < (pool.virtualSwapAmountInRiskless (risklessOptimalTrade brentq m pool)).1 * m -
          risklessOptimalTrade brentq m pool) ∧
        ((pool.virtualSwapAmountInRiskless (risklessOptimalTrade brentq m pool)).1 * m -
          risklessOptimalTrade brentq m pool ≤ 0 →
          (arbitrageExactly brentq m pool).mutations = []))) := by
  constructor
  · intro hs ht
    rw [arbitrageExactly_of_risky brentq m pool hg hs]
    have hna := not_lt.mpr ht
    constructor
    · constructor
      · intro hEq
        by_contra hnp
        rw [show (riskySwapBranch brentq m pool).mutations = [] from by
          simp only [riskySwapBranch]
          rw [if_neg hna, if_neg hnp]] at hEq
        simp at hEq
      · intro hp
        simp only [riskySwapBranch]
        rw [if_neg hna, if_pos hp]
    · intro hnp
      simp only [riskySwapBranch]
      rw [if_neg hna, if_neg (not_lt.mpr hnp)]
  · intro hs hb ht
    rw [arbitrageExactly_of_riskless brentq m pool hg hs hb]
    have hna := not_lt.mpr ht
    constructor
    · constructor
      · intro hEq
        by_contra hnp
        rw [show (risklessSwapBranch brentq m pool).mutations = [] from by
          simp only [risklessSwapBranch]
          rw [if_neg hna, if_neg hnp]] at hEq
        simp at hEq
      · intro hp
        simp only [risklessSwapBranch]
        rw [if_neg hna, if_pos hp]
    · intro hnp
      simp only [risklessSwapBranch]
      rw [if_neg hna, if_neg (not_lt.mpr hnp)]

theorem C3_profit_gate_witness :
    (arbitrageExactly rfMid 1 poolA).mutations =
      [SwapCall.riskyIn (riskyOptimalTrade rfMid 1 poolA)] :=
  (((C3_profit_gate rfMid 1 poolA
        (by norm_num [boundaryGuardFires, poolA, Pool.gamma, EPSILON])).1
      (by norm_num [poolA])
      (by norm_num [riskyOptimalTrade, riskyFunc, riskyUpper, npSign, poolA,
        EPSILON, rfMid])).1).mpr
    (by norm_num [riskyOptimalTrade, riskyFunc, riskyUpper, npSign, poolA,
      EPSILON, rfMid])

/-- C7: for every pool state passing the boundary guard, assuming the root
finder returns a value between the endpoints of the bracket it is given
(scipy `brentq`'s contract) at each of the two possible call sites, the
computed trade size is nonnegative in both directions and the fatal
assert-failure branch is never taken. -/
theorem C7_trade_size_nonneg (brentq : (ℚ → ℚ) → ℚ → ℚ → ℚ) (m : ℚ)
    (pool : Pool) (hg : ¬ boundaryGuardFires pool)
    (hrf1 : npSign (riskyFunc pool m EPSILON) ≠
        npSign (riskyFunc pool m (riskyUpper pool - EPSILON)) →
      min EPSILON (riskyUpper pool - EPSILON) ≤
        brentq (riskyFunc pool m) EPSILON (riskyUpper pool - EPSILON) ∧
      brentq (riskyFunc pool m) EPSILON (riskyUpper pool - EPSILON) ≤
        max EPSILON (riskyUpper pool - EPSILON))
    (hrf2 : npSign (risklessFunc pool m EPSILON) ≠
        npSign (risklessFunc pool m (risklessUpper pool - EPSILON)) →
      min EPSILON (risklessUpper pool - EPSILON) ≤
        brentq (risklessFunc pool m) EPSILON (risklessUpper pool - EPSILON) ∧
      brentq (risklessFunc pool m) EPSILON (risklessUpper pool - EPSILON) ≤
        max EPSILON (risklessUpper pool - EPSILON)) :
    (arbitrageExactly brentq m pool).assertFailed = false ∧
    (∀ t, (arbitrageExactly brentq m pool).optimal_trade = some t → 0 ≤ t) := by
  obtain ⟨h1, h2, h3, h4⟩ := (guard_not_fires_iff pool).mp hg
  have h2' : ¬ risklessUpper pool < EPSILON := fun hc => h2 (Or.inr hc)
  have ht1 : 0 ≤ riskyOptimalTrade brentq m pool :=
    riskyOptimalTrade_nonneg brentq m pool h3 (fun h => (hrf1 h).1)
  have ht2 : 0 ≤ risklessOptimalTrade brentq m pool :=
    risklessOptimalTrade_nonneg brentq m pool h2' h4 (fun h => (hrf2 h).1)
  by_cases hs : pool.getMarginalPriceSwapRiskyIn 0 > m + 1 / 100000000
  · rw [arbitrageExactly_of_risky brentq m pool hg hs]
    refine ⟨riskySwapBranch_assertFailed brentq m pool (not_lt.mpr ht1), ?_⟩
    intro t ht
    rw [riskySwapBranch_optimal_trade] at ht
    simp only [Option.some.injEq] at ht
    exact ht ▸ ht1
  · by_cases hb : pool.getMarginalPriceSwapRisklessIn 0 < m - 1 / 100000000
    · rw [arbitrageExactly_of_riskless brentq m pool hg hs hb]
      refine ⟨risklessSwapBranch_assertFailed brentq m pool (not_lt.mpr ht2), ?_⟩
      intro t ht
      rw [risklessSwapBranch_optimal_trade] at ht
      simp only [Option.some.injEq] at ht
      exact ht ▸ ht2
    · rw [arbitrageExactly_of_aligned brentq m pool hg hs hb]
      exact ⟨rfl, fun t ht => by simp [noopTrace] at ht⟩

theorem C7_trade_size_nonneg_witness :
    ¬ boundaryGuardFires poolB ∧
    (arbitrageExactly rfMid (13/8) poolB).assertFailed = false :=
  ⟨by norm_num [boundaryGuardFires, poolB, Pool.gamma, EPSILON],
   (C7_trade_size_nonneg rfMid (13/8) poolB
      (by norm_num [boundaryGuardFires, poolB, Pool.gamma, EPSILON])
      (fun _ => rfMid_mem _ _ _) (fun _ => rfMid_mem _ _ _)).1⟩

/-- C6: under the guard, when `f(ε)` and `f(upper_bound - ε)` have opposite
`np.sign` values for the selected direction and the root finder satisfies
scipy `brentq`'s contract at that call site — a result inside the bracket
with residual below `tol` — the trade size the call computes is that root:
it lies in `[ε, upper_bound - ε]` and satisfies `|f(t*)| < tol`. -/
theorem C6_bracketed_root (brentq : (ℚ → ℚ) → ℚ → ℚ → ℚ) (m tol : ℚ)
    (pool : Pool) (hg : ¬ boundaryGuardFires pool) :
    (pool.getMarginalPriceSwapRiskyIn 0 > m + 1 / 100000000 →
      npSign (riskyFunc pool m EPSILON) ≠
        npSign (riskyFunc pool m (riskyUpper pool - EPSILON)) →
      (EPSILON ≤ brentq (riskyFunc pool m) EPSILON (riskyUpper pool - EPSILON) ∧
        brentq (riskyFunc pool m) EPSILON (riskyUpper pool - EPSILON) ≤
          riskyUpper pool - EPSILON ∧
        |riskyFunc pool m
          (brentq (riskyFunc pool m) EPSILON (riskyUpper pool - EPSILON))| < tol) →
      ((arbitrageExactly brentq m pool).optimal_trade =
          some (riskyOptimalTrade brentq m pool) ∧
        EPSILON ≤ riskyOptimalTrade brentq m pool ∧
        riskyOptimalTrade brentq m pool ≤ riskyUpper pool - EPSILON ∧
        |riskyFunc pool m (riskyOptimalTrade brentq m pool)| < tol)) ∧
    (¬ pool.getMarginalPriceSwapRiskyIn 0 > m + 1 / 100000000 →
      pool.getMarginalPriceSwapRisklessIn 0 < m - 1 / 100000000 →
      npSign (risklessFunc pool m EPSILON) ≠
        npSign (risklessFunc pool m (risklessUpper pool - EPSILON)) →
      (EPSILON ≤ brentq (risklessFunc pool m) EPSILON (risklessUpper pool - EPSILON) ∧
        brentq (risklessFunc pool m) EPSILON (risklessUpper pool - EPSILON) ≤
          risklessUpper pool - EPSILON ∧
        |risklessFunc pool m
          (brentq (risklessFunc pool m) EPSILON (risklessUpper pool - EPSILON))| < tol) →
      ((arbitrageExactly brentq m pool).optimal_trade =
          some (risklessOptimalTrade brentq m pool) ∧
        EPSILON ≤ risklessOptimalTrade brentq m pool ∧
        risklessOptimalTrade brentq m pool ≤ risklessUpper pool - EPSILON ∧
        |risklessFunc pool m (risklessOptimalTrade brentq m pool)| < tol)) := by
  constructor
  · intro hs hsign hrf
    have hopt : riskyOptimalTrade brentq m pool =
        brentq (riskyFunc pool m) EPSILON (riskyUpper pool - EPSILON) := by
      simp only [riskyOptimalTrade]
      rw [if_pos hsign]
    rw [arbitrageExactly_of_risky brentq m pool hg hs,
      riskySwapBranch_optimal_trade, hopt]
    exact ⟨rfl, hrf.1, hrf.2.1, hrf.2.2⟩
  · intro hs hb hsign hrf
    have hopt : risklessOptimalTrade brentq m pool =
        brentq (risklessFunc pool m) EPSILON (risklessUpper pool - EPSILON) := by
      simp only [risklessOptimalTrade]
      rw [if_pos hsign]
    rw [arbitrageExactly_of_riskless brentq m pool hg hs hb,
      risklessSwapBranch_optimal_trade, hopt]
    exact ⟨rfl, hrf.1, hrf.2.1, hrf.2.2⟩

theorem C6_bracketed_root_witness :
    EPSILON ≤ riskyOptimalTrade rfMid (13/8) poolB ∧
    riskyOptimalTrade rfMid (13/8) poolB ≤ riskyUpper poolB - EPSILON ∧
    |riskyFunc poolB (13/8) (riskyOptimalTrade rfMid (13/8) poolB)| < 1 := by
  have h := (C6_bracketed_root rfMid (13/8) 1 poolB
      (by norm_num [boundaryGuardFires, poolB, Pool.gamma, EPSILON])).1
    (by norm_num [poolB])
    (by norm_num [npSign, riskyFunc, riskyUpper, poolB, EPSILON])
    (by norm_num [riskyFunc, riskyUpper, poolB, EPSILON, rfMid, abs_lt])
  exact ⟨h.2.1, h.2.2.1, h.2.2.2⟩

/-- C10: under the guard and within a selected direction, when exactly one of
`f(ε)`, `f(upper_bound - ε)` is exactly zero, `np.sign` classifies the pair
as differing, so the `brentq` branch is taken (the trade size is the root
finder's result, not the capacity fallback); and in general the fallback
branch is taken exactly when the two `np.sign` values are equal — including
the case where both evaluations are exactly zero. -/
theorem C10_sign_zero_bracket (brentq : (ℚ → ℚ) → ℚ → ℚ → ℚ) (m : ℚ)
    (pool : Pool) (hg : ¬ boundaryGuardFires pool) :
    (pool.getMarginalPriceSwapRiskyIn 0 > m + 1 / 100000000 →
      (((riskyFunc pool m EPSILON = 0 ∧
          riskyFunc pool m (riskyUpper pool - EPSILON) ≠ 0) ∨
        (riskyFunc pool m EPSILON ≠ 0 ∧
          riskyFunc pool m (riskyUpper pool - EPSILON) = 0)) →
        riskyOptimalTrade brentq m pool =
          brentq (riskyFunc pool m) EPSILON (riskyUpper pool - EPSILON) ∧
        (arbitrageExactly brentq m pool).usedFallback = some false) ∧
      ((arbitrageExactly brentq m pool).usedFallback = some true ↔
        npSign (riskyFunc pool m EPSILON) =
          npSign (riskyFunc pool m (riskyUpper pool - EPSILON)))) ∧
    (¬ pool.getMarginalPriceSwapRiskyIn 0 > m + 1 / 100000000 →
      pool.getMarginalPriceSwapRisklessIn 0 < m - 1 / 100000000 →
      (((risklessFunc pool m EPSILON = 0 ∧
          risklessFunc pool m (risklessUpper pool - EPSILON) ≠ 0) ∨
        (risklessFunc pool m EPSILON ≠ 0 ∧
          risklessFunc pool m (risklessUpper pool - EPSILON) = 0)) →
        risklessOptimalTrade brentq m pool =
          brentq (risklessFunc pool m) EPSILON (risklessUpper pool - EPSILON) ∧
        (arbitrageExactly brentq m pool).usedFallback = some false) ∧
      ((arbitrageExactly brentq m pool).usedFallback = some true ↔
        npSign (risklessFunc pool m EPSILON) =
          npSign (risklessFunc pool m (risklessUpper pool - EPSILON)))) := by
  constructor
  · intro hs
    have hE := arbitrageExactly_of_risky brentq m pool hg hs
    constructor
    · intro hmix
      have hsign := npSign_ne_of_zero_mix _ _ hmix
      constructor
      · simp only [riskyOptimalTrade]
        rw [if_pos hsign]
      · rw [hE, riskySwapBranch_usedFallback]
        simp only [Option.some.injEq, decide_eq_false_iff_not]
        exact hsign
    · rw [hE, riskySwapBranch_usedFallback]
      simp only [Option.some.injEq, decide_eq_true_eq]
  · intro hs hb
    have hE := arbitrageExactly_of_riskless brentq m pool hg hs hb
    constructor
    · intro hmix
      have hsign := npSign_ne_of_zero_mix _ _ hmix
      constructor
      · simp only [risklessOptimalTrade]
        rw [if_pos hsign]
      · rw [hE, risklessSwapBranch_usedFallback]
        simp only [Option.some.injEq, decide_eq_false_iff_not]
        exact hsign
    · rw [hE, risklessSwapBranch_usedFallback]
      simp only [Option.some.injEq, decide_eq_true_eq]

theorem C10_sign_zero_bracket_witness :
    (arbitrageExactly rfMid 1 poolA).usedFallback = some true :=
  (((C10_sign_zero_bracket rfMid 1 poolA
        (by norm_num [boundaryGuardFires, poolA, Pool.gamma, EPSILON])).1
      (by norm_num [poolA])).2).mpr
    (by norm_num [npSign, riskyFunc, riskyUpper, poolA, EPSILON])

/-- C1 as stated is false for the riskless-in direction: at this concrete
input the guard passes, the riskless-in direction is selected, the two
endpoint evaluations have the same sign so the capacity fallback is taken —
and the computed trade size is `K - R2 = 1/2`, not the claimed capacity
bound `(K + invariant - R2)/(1 - fee) = 1`. -/
theorem C1_counterexample :
    ¬ boundaryGuardFires poolC ∧
    (arbitrageExactly rfMid 3 poolC).direction = some Direction.risklessIn ∧
    (arbitrageExactly rfMid 3 poolC).usedFallback = some true ∧
    (arbitrageExactly rfMid 3 poolC).optimal_trade = some (1/2) ∧
    risklessUpper poolC = 1 ∧ (1/2 : ℚ) ≠ risklessUpper poolC := by
  refine ⟨by norm_num [boundaryGuardFires, poolC, Pool.gamma, EPSILON], ?_⟩
  norm_num [arbitrageExactly, risklessSwapBranch, risklessOptimalTrade, risklessFunc,
    risklessUpper, npSign, poolC, Pool.gamma, EPSILON, rfMid]

/-- C1 amended: for every pool state passing the boundary guard, when the
endpoint evaluations have the same `np.sign` in the selected direction, the
computed trade size equals `1 - risky_reserve` in the risky-in direction and
`K - riskless_reserve` in the riskless-in direction (the code's fallback,
which for the riskless-in direction differs from the bracket's upper bound
`(K + invariant - riskless_reserve)/(1 - fee)`). -/
theorem C1_capacity_fallback (brentq : (ℚ → ℚ) → ℚ → ℚ → ℚ) (m : ℚ)
    (pool : Pool) (hg : ¬ boundaryGuardFires pool) :
    (pool.getMarginalPriceSwapRiskyIn 0 > m + 1 / 100000000 →
      npSign (riskyFunc pool m EPSILON) =
        npSign (riskyFunc pool m (riskyUpper pool - EPSILON)) →
      (arbitrageExactly brentq m pool).optimal_trade =
        some (1 - pool.reserves_risky)) ∧
    (¬ pool.getMarginalPriceSwapRiskyIn 0 > m + 1 / 100000000 →
      pool.getMarginalPriceSwapRisklessIn 0 < m - 1 / 100000000 →
      npSign (risklessFunc pool m EPSILON) =
        npSign (risklessFunc pool m (risklessUpper pool - EPSILON)) →
      (arbitrageExactly brentq m pool).optimal_trade =
        some (pool.K - pool.reserves_riskless)) := by
  constructor
  · intro hs hsign
    rw [arbitrageExactly_of_risky brentq m pool hg hs,
      riskySwapBranch_optimal_trade]
    simp only [riskyOptimalTrade]
    rw [if_neg (fun hne => hne hsign)]
    rfl
  · intro hs hb hsign
    rw [arbitrageExactly_of_riskless brentq m pool hg hs hb,
      risklessSwapBranch_optimal_trade]
    simp only [risklessOptimalTrade]
    rw [if_neg (fun hne => hne hsign)]

theorem C1_capacity_fallback_witness :
    (arbitrageExactly rfMid 1 poolA).optimal_trade =
      some (1 - poolA.reserves_risky) :=
  (C1_capacity_fallback rfMid 1 poolA
      (by norm_num [boundaryGuardFires, poolA, Pool.gamma, EPSILON])).1
    (by norm_num [poolA])
    (by norm_num [npSign, riskyFunc, riskyUpper, poolA, EPSILON])

end ParetoVault
